import Mathlib

set_option maxHeartbeats 1000000
set_option maxRecDepth 100000

/- A shallow embedding of the example REST client in
   src/examples/integracao_python.py, together with a model of the JSON
   text codec used for request bodies (json.dumps with default
   separators, as invoked by the HTTP library) and for response bodies
   (resp.json, i.e. json.loads). -/

mutual

inductive Json where
  | null : Json
  | bool : Bool → Json
  | num : Int → Json
  | str : String → Json
  | arr : JsonList → Json
  | obj : JsonObj → Json

inductive JsonList where
  | nil : JsonList
  | cons : Json → JsonList → JsonList

inductive JsonObj where
  | onil : JsonObj
  | ocons : String → Json → JsonObj → JsonObj

end

/- Decimal digit helpers for the JSON number codec. -/

def digitChar (d : Nat) : Char :=
  if d = 0 then '0' else if d = 1 then '1' else if d = 2 then '2'
  else if d = 3 then '3' else if d = 4 then '4' else if d = 5 then '5'
  else if d = 6 then '6' else if d = 7 then '7' else if d = 8 then '8' else '9'

def charDigit (c : Char) : Nat :=
  if c = '0' then 0 else if c = '1' then 1 else if c = '2' then 2
  else if c = '3' then 3 else if c = '4' then 4 else if c = '5' then 5
  else if c = '6' then 6 else if c = '7' then 7 else if c = '8' then 8
  else if c = '9' then 9 else 10

def isDig (c : Char) : Bool :=
  (c == '0') || (c == '1') || (c == '2') || (c == '3') || (c == '4') ||
  (c == '5') || (c == '6') || (c == '7') || (c == '8') || (c == '9')

def natDigitsRev (n : Nat) : List Char :=
  if h : n = 0 then [] else digitChar (n % 10) :: natDigitsRev (n / 10)
decreasing_by exact Nat.div_lt_self (by omega) (by omega)

def natDigits (n : Nat) : List Char :=
  if n = 0 then [ '0'] else (natDigitsRev n).reverse

def valRevList : List Char → Nat
  | [] => 0
  | c :: cs => charDigit c + 10 * valRevList cs

def digitsVal (l : List Char) : Nat := valRevList l.reverse

def intChars (i : Int) : List Char :=
  if i < 0 then '-' :: natDigits i.natAbs else natDigits i.natAbs

/- String escaping: json.dumps escapes the quote and backslash
   characters with a backslash. -/

def escChar (c : Char) : List Char :=
  if c = '"' then [ '\\', '"'] else if c = '\\' then [ '\\', '\\'] else [c]

def escChars : List Char → List Char
  | [] => []
  | c :: cs => escChar c ++ escChars cs

def strChars (s : String) : List Char := '"' :: (escChars s.data ++ [ '"'])

/- The encoder: json.dumps with its default separators
   (comma-space between items, colon-space after keys). -/

def nullChars : List Char := [ 'n', 'u', 'l', 'l']

def trueChars : List Char := [ 't', 'r', 'u', 'e']

def falseChars : List Char := [ 'f', 'a', 'l', 's', 'e']

mutual

def encJ : Json → List Char
  | .null => nullChars
  | .bool true => trueChars
  | .bool false => falseChars
  | .num i => intChars i
  | .str s => strChars s
  | .arr .nil => [ '[', ']']
  | .arr (.cons v vs) => '[' :: (encJ v ++ encL vs ++ [ ']'])
  | .obj .onil => [ '\x7b', '\x7d']
  | .obj (.ocons k v ms) =>
      '\x7b' :: (strChars k ++ [ ':', ' '] ++ encJ v ++ encO ms ++ [ '\x7d'])

def encL : JsonList → List Char
  | .nil => []
  | .cons v vs => ',' :: ' ' :: (encJ v ++ encL vs)

def encO : JsonObj → List Char
  | .onil => []
  | .ocons k v ms => ',' :: ' ' :: (strChars k ++ [ ':', ' '] ++ encJ v ++ encO ms)

end

def encodeJson (v : Json) : String := String.mk (encJ v)

/- The decoder: a recursive-descent JSON reader modelling json.loads. -/

def skipSp : List Char → List Char
  | [] => []
  | c :: cs => if c = ' ' then skipSp cs else c :: cs

def stripChars : List Char → List Char → Option (List Char)
  | [], cs => some cs
  | _ :: _, [] => none
  | p :: ps, c :: cs => if c = p then stripChars ps cs else none

def parseStrBody : List Char → Option (List Char × List Char)
  | [] => none
  | c :: rest =>
    if c = '"' then some ([], rest)
    else if c = '\\' then
      match rest with
      | [] => none
      | d :: rest2 =>
        if d = '"' || d = '\\' then
          match parseStrBody rest2 with
          | none => none
          | some (p, r) => some (d :: p, r)
        else none
    else
      match parseStrBody rest with
      | none => none
      | some (p, r) => some (c :: p, r)

def splitDigits : List Char → List Char × List Char
  | [] => ([], [])
  | c :: rest =>
    if isDig c then
      let pr := splitDigits rest
      (c :: pr.1, pr.2)
    else ([], c :: rest)

mutual

def parseVal : Nat → List Char → Option (Json × List Char)
  | 0, _ => none
  | fuel + 1, cs0 =>
    match skipSp cs0 with
    | [] => none
    | c :: rest =>
      if c = '"' then
        match parseStrBody rest with
        | none => none
        | some (p, r) => some (.str (String.mk p), r)
      else if c = '[' then
        match skipSp rest with
        | [] => none
        | d :: rest2 =>
          if d = ']' then some (.arr .nil, rest2)
          else
            match parseElems fuel (d :: rest2) with
            | none => none
            | some (vs, r) => some (.arr vs, r)
      else if c = '\x7b' then
        match skipSp rest with
        | [] => none
        | d :: rest2 =>
          if d = '\x7d' then some (.obj .onil, rest2)
          else
            match parseMembers fuel (d :: rest2) with
            | none => none
            | some (ms, r) => some (.obj ms, r)
      else if c = 'n' then
        match stripChars [ 'u', 'l', 'l'] rest with
        | none => none
        | some r => some (.null, r)
      else if c = 't' then
        match stripChars [ 'r', 'u', 'e'] rest with
        | none => none
        | some r => some (.bool true, r)
      else if c = 'f' then
        match stripChars [ 'a', 'l', 's', 'e'] rest with
        | none => none
        | some r => some (.bool false, r)
      else if c = '-' then
        match splitDigits rest with
        | ([], _) => none
        | (ds, r) => some (.num (-(digitsVal ds : Int)), r)
      else if isDig c then
        match splitDigits (c :: rest) with
        | ([], _) => none
        | (ds, r) => some (.num ((digitsVal ds : Int)), r)
      else none

def parseElems : Nat → List Char → Option (JsonList × List Char)
  | 0, _ => none
  | fuel + 1, cs0 =>
    match parseVal fuel cs0 with
    | none => none
    | some (v, r) =>
      match skipSp r with
      | [] => none
      | c :: r2 =>
        if c = ',' then
          match parseElems fuel r2 with
          | none => none
          | some (vs, r3) => some (.cons v vs, r3)
        else if c = ']' then some (.cons v .nil, r2)
        else none

def parseMembers : Nat → List Char → Option (JsonObj × List Char)
  | 0, _ => none
  | fuel + 1, cs0 =>
    match skipSp cs0 with
    | [] => none
    | c :: rest =>
      if c = '"' then
        match parseStrBody rest with
        | none => none
        | some (k, r) =>
          match skipSp r with
          | [] => none
          | d :: r2 =>
            if d = ':' then
              match parseVal fuel r2 with
              | none => none
              | some (v, r3) =>
                match skipSp r3 with
                | [] => none
                | e :: r4 =>
                  if e = ',' then
                    match parseMembers fuel r4 with
                    | none => none
                    | some (ms, r5) => some (.ocons (String.mk k) v ms, r5)
                  else if e = '\x7d' then some (.ocons (String.mk k) v .onil, r4)
                  else none
            else none
      else none

end

def parseJson (s : String) : Option Json :=
  match parseVal (2 * s.length + 2) s.data with
  | none => none
  | some (v, r) => if skipSp r = [] then some v else none

/- The client model, embedded from src/examples/integracao_python.py.
   The script hard-codes API_URL and API_KEY, builds one atomic-event
   dictionary, and issues three HTTP calls: POST /append with the event
   as JSON body, GET /scan, and GET /query?trace_id=py-demo-123e, each
   carrying the x-api-key header.  The generalisation over the
   configuration and over the event follows section 4 of the spec. -/

def API_URL : String := "http://localhost:8000"

def API_KEY : String := "changeme"

structure Config where
  base_url : String
  api_key : String
deriving DecidableEq

def defaultConfig : Config := { base_url := API_URL, api_key := API_KEY }

inductive Method where
  | GET : Method
  | POST : Method
deriving DecidableEq

structure Response where
  status : Nat
  body : String
deriving DecidableEq

structure Request where
  method : Method
  url : String
  headers : List (String × String)
  body : Option String
deriving DecidableEq

inductive TransportResult where
  | ok : Response → TransportResult
  | failure : String → TransportResult
deriving DecidableEq

inductive ClientError where
  | transportError : String → ClientError
  | decodeError : ClientError
deriving DecidableEq

/- The atomic-event literal of the script, lines 8 to 18 of the source. -/

def exampleEvent : Json :=
  .obj (.ocons ("entity_type") (.str ("function"))
    (.ocons ("intent") (.str ("run_code"))
    (.ocons ("this") (.str ("add"))
    (.ocons ("did") (.obj (.ocons ("actor") (.str ("python-client"))
        (.ocons ("action") (.str ("run_code")) .onil)))
    (.ocons ("input") (.obj (.ocons ("args")
        (.arr (.cons (.num 1) (.cons (.num 2) .nil))) .onil))
    (.ocons ("metadata") (.obj (.ocons ("trace_id") (.str ("py-demo-123e"))
        (.ocons ("created_at") (.str ("2025-11-07T13:00:00Z")) .onil)))
    .onil))))))

/- requests.post on line 21: POST base/append, the two headers of
   line 23, and the event serialised as the JSON request body. -/

def appendRequest (cfg : Config) (event : Json) : Request :=
  { method := .POST
    url := cfg.base_url ++ "/append"
    headers := [("x-api-key", cfg.api_key), ("Content-Type", "application/json")]
    body := some (encodeJson event) }

/- requests.get on line 29: GET base/scan with the x-api-key header. -/

def scanRequest (cfg : Config) : Request :=
  { method := .GET
    url := cfg.base_url ++ "/scan"
    headers := [("x-api-key", cfg.api_key)]
    body := none }

/- requests.get on line 36: GET base/query with the trace identifier
   interpolated directly into the URL (an f-string in the source). -/

def queryRequest (cfg : Config) (trace_id : String) : Request :=
  { method := .GET
    url := cfg.base_url ++ "/query?trace_id=" ++ trace_id
    headers := [("x-api-key", cfg.api_key)]
    body := none }

/- Response handling: the script calls resp.json() on the response and
   nothing else: an uncompleted HTTP call raises the transport error
   uncaught, a non-JSON body raises the decode error uncaught, and the
   HTTP status code is never inspected. -/

def handleResponse (tr : TransportResult) : Except ClientError Json :=
  match tr with
  | .failure m => .error (.transportError m)
  | .ok resp =>
    match parseJson resp.body with
    | none => .error .decodeError
    | some v => .ok v

/- Each operation performs exactly one HTTP exchange; the second
   component records the requests issued by the operation. -/

def runOp (transport : Request → TransportResult) (req : Request) :
    Except ClientError Json × List Request :=
  (handleResponse (transport req), [req])

def appendOp (cfg : Config) (transport : Request → TransportResult)
    (event : Json) : Except ClientError Json × List Request :=
  runOp transport (appendRequest cfg event)

def scanOp (cfg : Config) (transport : Request → TransportResult) :
    Except ClientError Json × List Request :=
  runOp transport (scanRequest cfg)

def queryOp (cfg : Config) (transport : Request → TransportResult)
    (trace_id : String) : Except ClientError Json × List Request :=
  runOp transport (queryRequest cfg trace_id)

/- The whole script: append, then scan, then query, sequentially; an
   uncaught exception aborts the remainder of the script. -/

def runScript (cfg : Config) (transport : Request → TransportResult)
    (event : Json) :
    Except ClientError (Json × Json × Json) × List Request :=
  match handleResponse (transport (appendRequest cfg event)) with
  | .error e => (.error e, [appendRequest cfg event])
  | .ok v1 =>
    match handleResponse (transport (scanRequest cfg)) with
    | .error e => (.error e, [appendRequest cfg event, scanRequest cfg])
    | .ok v2 =>
      match handleResponse (transport (queryRequest cfg ("py-demo-123e"))) with
      | .error e =>
        (.error e,
          [appendRequest cfg event, scanRequest cfg, queryRequest cfg ("py-demo-123e")])
      | .ok v3 =>
        (.ok (v1, v2, v3),
          [appendRequest cfg event, scanRequest cfg, queryRequest cfg ("py-demo-123e")])

def requestBodyJson (r : Request) : Option Json :=
  match r.body with
  | none => none
  | some b => parseJson b


/- A list whose head is not a decimal digit (used to delimit numbers). -/

def headNotDig : List Char → Prop
  | [] => True
  | c :: _ => isDig c = false

def hexDigitChar (n : Nat) : Char :=
  if n < 10 then digitChar n
  else if n = 10 then 'A' else if n = 11 then 'B' else if n = 12 then 'C'
  else if n = 13 then 'D' else if n = 14 then 'E' else 'F'

def isUnreservedChar (c : Char) : Bool :=
  c.isAlphanum || (c == '-') || (c == '.') || (c == '_') || (c == '~')

/-- Modelled from the spec: "proper query-parameter encoding, including
escaping of special characters if the identifier contains them" (section 8).
RFC 3986 percent-encoding of a query component: unreserved characters are
kept and every other character is replaced by a percent sign followed by its
two hexadecimal digits.  The source performs no such encoding; this
definition exists only to compare the spec's words against the code. -/
def percentEncode (s : String) : String :=
  String.mk (s.data.foldr (fun c acc =>
    (if isUnreservedChar c then [c]
     else [ '%', hexDigitChar (c.toNat / 16 % 16), hexDigitChar (c.toNat % 16)]) ++ acc) [])

/- Size measure used to bound the fuel the decoder needs. -/

mutual

def sJ : Json → Nat
  | .arr (.cons v vs) => sJ v + sL vs + 1
  | .obj (.ocons _ v ms) => sJ v + sO ms + 1
  | _ => 1

def sL : JsonList → Nat
  | .nil => 1
  | .cons v vs => sJ v + sL vs + 1

def sO : JsonObj → Nat
  | .onil => 1
  | .ocons _ v ms => sJ v + sO ms + 1

end

theorem one_le_sJ (v : Json) : 1 ≤ sJ v := by
  cases v with
  | arr vs => cases vs <;> simp [sJ]
  | obj ms => cases ms <;> simp [sJ]
  | _ => simp [sJ]

theorem one_le_sL (vs : JsonList) : 1 ≤ sL vs := by
  cases vs <;> simp [sL]

theorem one_le_sO (ms : JsonObj) : 1 ≤ sO ms := by
  cases ms <;> simp [sO]

/- Digit lemmas. -/

theorem charDigit_digitChar (d : Nat) (h : d < 10) : charDigit (digitChar d) = d := by
  interval_cases d <;> rfl

theorem isDig_digitChar (d : Nat) (h : d < 10) : isDig (digitChar d) = true := by
  interval_cases d <;> rfl

theorem isDig_cases (c : Char) (h : isDig c = true) :
    c = '0' ∨ c = '1' ∨ c = '2' ∨ c = '3' ∨ c = '4' ∨
      c = '5' ∨ c = '6' ∨ c = '7' ∨ c = '8' ∨ c = '9' := by
  simp only [isDig, Bool.or_eq_true, beq_iff_eq] at h
  tauto

theorem isDig_ne (c : Char) (h : isDig c = true) :
    c ≠ '"' ∧ c ≠ '[' ∧ c ≠ '\x7b' ∧ c ≠ 'n' ∧ c ≠ 't' ∧ c ≠ 'f' ∧
      c ≠ '-' ∧ c ≠ ' ' ∧ c ≠ ']' ∧ c ≠ '\x7d' ∧ c ≠ ',' ∧ c ≠ ':' := by
  rcases isDig_cases c h with rfl | rfl | rfl | rfl | rfl | rfl | rfl | rfl | rfl | rfl <;>
    decide

theorem valRevList_natDigitsRev (n : Nat) : valRevList (natDigitsRev n) = n := by
  induction n using Nat.strong_induction_on with
  | _ n ih =>
    rw [natDigitsRev]
    split
    · simp only [valRevList]; omega
    · rename_i h
      rw [valRevList]
      rw [ih (n / 10) (Nat.div_lt_self (by omega) (by omega))]
      rw [charDigit_digitChar _ (Nat.mod_lt _ (by omega))]
      omega

theorem digitsVal_natDigits (n : Nat) : digitsVal (natDigits n) = n := by
  unfold digitsVal natDigits
  by_cases h : n = 0
  · rw [if_pos h]; subst h; rfl
  · rw [if_neg h, List.reverse_reverse, valRevList_natDigitsRev]

theorem isDig_of_mem_natDigitsRev (n : Nat) :
    ∀ c ∈ natDigitsRev n, isDig c = true := by
  induction n using Nat.strong_induction_on with
  | _ n ih =>
    rw [natDigitsRev]
    split
    · simp
    · rename_i h
      intro c hc
      rcases List.mem_cons.mp hc with rfl | hc
      · exact isDig_digitChar _ (Nat.mod_lt _ (by omega))
      · exact ih (n / 10) (Nat.div_lt_self (by omega) (by omega)) c hc

theorem isDig_of_mem_natDigits (n : Nat) : ∀ c ∈ natDigits n, isDig c = true := by
  unfold natDigits
  split
  · intro c hc; simp at hc; subst hc; rfl
  · intro c hc
    exact isDig_of_mem_natDigitsRev n c (List.mem_reverse.mp hc)

theorem natDigits_ne_nil (n : Nat) : natDigits n ≠ [] := by
  unfold natDigits
  split
  · simp
  · rename_i h
    intro hrev
    rw [List.reverse_eq_nil_iff] at hrev
    rw [natDigitsRev, dif_neg h] at hrev
    simp at hrev

/- Helper lemmas about the decoder's token readers. -/

theorem splitDigits_append (ds rest : List Char)
    (hds : ∀ c ∈ ds, isDig c = true) (hr : headNotDig rest) :
    splitDigits (ds ++ rest) = (ds, rest) := by
  induction ds with
  | nil =>
    cases rest with
    | nil => rfl
    | cons c cs =>
      have hc : isDig c = false := hr
      simp [splitDigits, hc]
  | cons d ds ih =>
    have hd : isDig d = true := hds d (by simp)
    have ih' := ih (fun c hc => hds c (by simp [hc]))
    simp only [List.cons_append, splitDigits, hd, if_true, List.append_eq, ih']

theorem stripChars_append (p cs : List Char) : stripChars p (p ++ cs) = some cs := by
  induction p with
  | nil => rfl
  | cons a ps ih => simp [stripChars, ih]

theorem parseStrBody_esc (l rest : List Char) :
    parseStrBody (escChars l ++ '"' :: rest) = some (l, rest) := by
  induction l with
  | nil =>
    show parseStrBody ('"' :: rest) = some ([], rest)
    unfold parseStrBody
    simp
  | cons c cs ih =>
    by_cases h1 : c = '"'
    · subst h1
      simp only [escChars, escChar, if_true, List.cons_append, List.nil_append,
        List.append_assoc]
      unfold parseStrBody
      simp [ih]
    · by_cases h2 : c = '\\'
      · subst h2
        simp only [escChars, escChar, List.cons_append, List.nil_append,
          List.append_assoc]
        unfold parseStrBody
        simp [ih]
      · simp only [escChars, escChar, h1, h2, if_false, List.cons_append,
          List.nil_append, List.append_assoc]
        unfold parseStrBody
        simp [h1, h2, ih]

theorem skipSp_cons_ne (c : Char) (cs : List Char) (h : c ≠ ' ') :
    skipSp (c :: cs) = c :: cs := by
  simp [skipSp, h]

theorem skipSp_cons_sp (cs : List Char) : skipSp (' ' :: cs) = skipSp cs := by
  simp [skipSp]

theorem parseVal_space (n : Nat) (cs : List Char) :
    parseVal n (' ' :: cs) = parseVal n cs := by
  cases n with
  | zero => rfl
  | succ m =>
    simp only [parseVal]
    rw [skipSp_cons_sp]

theorem parseElems_space (n : Nat) (cs : List Char) :
    parseElems n (' ' :: cs) = parseElems n cs := by
  cases n with
  | zero => rfl
  | succ m =>
    simp only [parseElems]
    rw [parseVal_space]

theorem parseMembers_space (n : Nat) (cs : List Char) :
    parseMembers n (' ' :: cs) = parseMembers n cs := by
  cases n with
  | zero => rfl
  | succ m =>
    simp only [parseMembers]
    rw [skipSp_cons_sp]

/- Every encoding is nonempty and starts with a character that is not a
   space and not a closing bracket. -/

theorem natDigits_head (n : Nat) :
    ∃ c cs, natDigits n = c :: cs ∧ isDig c = true := by
  cases hn : natDigits n with
  | nil => exact absurd hn (natDigits_ne_nil n)
  | cons c cs =>
    refine ⟨c, cs, rfl, ?_⟩
    exact isDig_of_mem_natDigits n c (by rw [hn]; simp)

theorem encJ_head (v : Json) :
    ∃ c cs, encJ v = c :: cs ∧ c ≠ ' ' ∧ c ≠ ']' ∧ c ≠ '\x7d' := by
  cases v with
  | null =>
    exact ⟨'n', [ 'u', 'l', 'l'], by simp [encJ, nullChars], by decide, by decide, by decide⟩
  | bool b =>
    cases b with
    | true =>
      exact ⟨'t', [ 'r', 'u', 'e'], by simp [encJ, trueChars],
        by decide, by decide, by decide⟩
    | false =>
      exact ⟨'f', [ 'a', 'l', 's', 'e'], by simp [encJ, falseChars],
        by decide, by decide, by decide⟩
  | num i =>
    simp only [encJ]
    unfold intChars
    split
    · exact ⟨'-', natDigits i.natAbs, rfl, by decide, by decide, by decide⟩
    · obtain ⟨c, cs, hc, hd⟩ := natDigits_head i.natAbs
      obtain ⟨_, _, _, _, _, _, _, hsp, hrb, hcb, _, _⟩ := isDig_ne c hd
      exact ⟨c, cs, hc, hsp, hrb, hcb⟩
  | str s =>
    exact ⟨'"', escChars s.data ++ [ '"'], by simp [encJ, strChars],
      by decide, by decide, by decide⟩
  | arr vs =>
    cases vs with
    | nil => exact ⟨'[', [ ']'], by simp [encJ], by decide, by decide, by decide⟩
    | cons w ws =>
      exact ⟨'[', encJ w ++ encL ws ++ [ ']'], by simp [encJ],
        by decide, by decide, by decide⟩
  | obj ms =>
    cases ms with
    | onil => exact ⟨'\x7b', [ '\x7d'], by simp [encJ], by decide, by decide, by decide⟩
    | ocons k w ms2 =>
      exact ⟨'\x7b', strChars k ++ [ ':', ' '] ++ encJ w ++ encO ms2 ++ [ '\x7d'],
        by simp [encJ], by decide, by decide, by decide⟩

theorem stringMk_data (s : String) : String.mk s.data = s := rfl

theorem splitDigits_natDigits (m : Nat) (rest : List Char) (hr : headNotDig rest) :
    splitDigits (natDigits m ++ rest) = (natDigits m, rest) :=
  splitDigits_append _ _ (isDig_of_mem_natDigits m) hr

theorem parseVal_natDigits (m : Nat) (g : Nat) (rest : List Char) (hr : headNotDig rest) :
    parseVal (g + 1) (natDigits m ++ rest) = some (.num (m : Int), rest) := by
  obtain ⟨c, cs, hc, hd⟩ := natDigits_head m
  obtain ⟨h1, h2, h3, h4, h5, h6, h7, hsp, _, _, _, _⟩ := isDig_ne c hd
  have hsplit := splitDigits_natDigits m rest hr
  rw [hc] at hsplit ⊢
  simp only [List.cons_append]
  unfold parseVal
  rw [skipSp_cons_ne c _ hsp]
  simp only [h1, h2, h3, h4, h5, h6, h7, if_false, hd, if_true, ite_false, ite_true]
  rw [show c :: (cs ++ rest) = (c :: cs) ++ rest from rfl, hsplit]
  have hv : digitsVal (c :: cs) = m := by rw [← hc, digitsVal_natDigits]
  simp [hv]

/- The round-trip theorem: decoding an encoding yields the original
   value, with any remainder that does not begin with a digit. -/

mutual

theorem pvEnc (v : Json) (fuel : Nat) (hf : sJ v ≤ fuel) (rest : List Char)
    (hr : headNotDig rest) : parseVal fuel (encJ v ++ rest) = some (v, rest) := by
  obtain ⟨g, hg⟩ : ∃ g, fuel = g + 1 := ⟨fuel - 1, by have := one_le_sJ v; omega⟩
  subst hg
  cases v with
  | null =>
    simp only [encJ, nullChars, List.cons_append, List.nil_append]
    unfold parseVal
    rw [skipSp_cons_ne _ _ (by decide)]
    simp [stripChars]
  | bool b =>
    cases b with
    | true =>
      simp only [encJ, trueChars, List.cons_append, List.nil_append]
      unfold parseVal
      rw [skipSp_cons_ne _ _ (by decide)]
      simp [stripChars]
    | false =>
      simp only [encJ, falseChars, List.cons_append, List.nil_append]
      unfold parseVal
      rw [skipSp_cons_ne _ _ (by decide)]
      simp [stripChars]
  | num i =>
    simp only [encJ]
    by_cases hi : i < 0
    · rw [intChars, if_pos hi]
      simp only [List.cons_append]
      unfold parseVal
      rw [skipSp_cons_ne _ _ (by decide)]
      obtain ⟨c, cs, hc, _⟩ := natDigits_head i.natAbs
      have hsplit := splitDigits_natDigits i.natAbs rest hr
      rw [hc] at hsplit
      simp only [List.cons_append] at hsplit
      have hv2 : digitsVal (c :: cs) = i.natAbs := by rw [← hc, digitsVal_natDigits]
      simp [hc, hsplit, hv2]
      rw [abs_of_neg hi, neg_neg]
    · rw [intChars, if_neg hi]
      rw [parseVal_natDigits i.natAbs g rest hr]
      have hv : ((i.natAbs : Int)) = i := by omega
      rw [hv]
  | str s =>
    simp only [encJ, strChars, List.cons_append, List.append_assoc,
      List.singleton_append]
    unfold parseVal
    rw [skipSp_cons_ne _ _ (by decide)]
    simp [parseStrBody_esc, stringMk_data]
  | arr vs =>
    cases vs with
    | nil =>
      simp only [encJ, List.cons_append, List.nil_append]
      unfold parseVal
      rw [skipSp_cons_ne _ _ (by decide)]
      simp [skipSp]
    | cons w ws =>
      obtain ⟨c, cs, hc, hsp, hrb, hcb⟩ := encJ_head w
      simp only [encJ, List.cons_append, List.append_assoc, List.singleton_append]
      unfold parseVal
      rw [skipSp_cons_ne _ _ (by decide)]
      simp only [sJ] at hf
      have hpe := peEnc w ws g (by omega) rest hr
      rw [hc] at hpe ⊢
      simp only [List.cons_append] at hpe ⊢
      rw [skipSp_cons_ne _ _ hsp]
      simp [hrb, hpe]
  | obj ms =>
    cases ms with
    | onil =>
      simp only [encJ, List.cons_append, List.nil_append]
      unfold parseVal
      rw [skipSp_cons_ne _ _ (by decide)]
      simp [skipSp]
    | ocons k w ms2 =>
      simp only [encJ, strChars, List.cons_append, List.append_assoc,
        List.singleton_append, List.nil_append]
      unfold parseVal
      rw [skipSp_cons_ne _ _ (by decide)]
      simp only [sJ] at hf
      have hpm := pmEnc k w ms2 g (by omega) rest hr
      simp [skipSp, hpm]
termination_by sizeOf v

theorem peEnc (v : Json) (vs : JsonList) (fuel : Nat) (hf : sJ v + sL vs ≤ fuel)
    (rest : List Char) (hr : headNotDig rest) :
    parseElems fuel (encJ v ++ (encL vs ++ (']' :: rest))) =
      some (.cons v vs, rest) := by
  obtain ⟨g, hg⟩ : ∃ g, fuel = g + 1 :=
    ⟨fuel - 1, by have := one_le_sJ v; have := one_le_sL vs; omega⟩
  subst hg
  have hnd : headNotDig (encL vs ++ (']' :: rest)) := by
    cases vs with
    | nil =>
      simp only [encL, List.nil_append]
      simp only [headNotDig]
      decide
    | cons w ws =>
      simp only [encL, List.cons_append]
      simp only [headNotDig]
      decide
  unfold parseElems
  rw [pvEnc v g (by have := one_le_sL vs; omega) _ hnd]
  cases vs with
  | nil =>
    simp only [encL, List.nil_append]
    rw [skipSp_cons_ne _ _ (by decide)]
    simp
  | cons w ws =>
    simp only [encL, List.cons_append]
    rw [skipSp_cons_ne _ _ (by decide)]
    simp only [sL] at hf
    have hpe := peEnc w ws g (by have := one_le_sJ v; omega) rest hr
    simp only [List.cons_append, List.append_assoc] at hpe
    simp [parseElems_space, hpe]
termination_by sizeOf v + sizeOf vs + 1

theorem pmEnc (k : String) (v : Json) (ms : JsonObj) (fuel : Nat)
    (hf : sJ v + sO ms ≤ fuel) (rest : List Char) (hr : headNotDig rest) :
    parseMembers fuel ('"' :: (escChars k.data ++ ('"' :: (':' :: ' ' ::
        (encJ v ++ (encO ms ++ ('\x7d' :: rest))))))) =
      some (.ocons k v ms, rest) := by
  obtain ⟨g, hg⟩ : ∃ g, fuel = g + 1 :=
    ⟨fuel - 1, by have := one_le_sJ v; have := one_le_sO ms; omega⟩
  subst hg
  have hnd : headNotDig (encO ms ++ ('\x7d' :: rest)) := by
    cases ms with
    | onil =>
      simp only [encO, List.nil_append]
      simp only [headNotDig]
      decide
    | ocons k2 w ms2 =>
      simp only [encO, List.cons_append]
      simp only [headNotDig]
      decide
  unfold parseMembers
  rw [skipSp_cons_ne _ _ (by decide)]
  simp only [parseStrBody_esc]
  rw [skipSp_cons_ne _ _ (by decide)]
  simp only [parseVal_space]
  rw [pvEnc v g (by have := one_le_sO ms; omega) _ hnd]
  cases ms with
  | onil =>
    simp only [encO, List.nil_append]
    rw [skipSp_cons_ne _ _ (by decide)]
    simp [stringMk_data]
  | ocons k2 w ms2 =>
    simp only [encO, strChars, List.cons_append, List.append_assoc,
      List.singleton_append]
    rw [skipSp_cons_ne _ _ (by decide)]
    simp only [sO] at hf
    have hpm := pmEnc k2 w ms2 g (by have := one_le_sJ v; omega) rest hr
    simp [parseMembers_space, hpm, stringMk_data]
termination_by sizeOf v + sizeOf ms + 1

end

/- The fuel supplied by parseJson suffices for any encoded value. -/

theorem one_le_natDigits_length (n : Nat) : 1 ≤ (natDigits n).length :=
  List.length_pos.mpr (natDigits_ne_nil n)

theorem one_le_intChars_length (i : Int) : 1 ≤ (intChars i).length := by
  unfold intChars
  split
  · simp
  · exact one_le_natDigits_length _

mutual

theorem sJ_le (v : Json) : sJ v ≤ 2 * (encJ v).length := by
  cases v with
  | null => simp [sJ, encJ, nullChars]
  | bool b => cases b <;> simp [sJ, encJ, trueChars, falseChars]
  | num i =>
    have h := one_le_intChars_length i
    simp only [sJ, encJ]
    omega
  | str s =>
    simp only [sJ, encJ, strChars, List.length_cons]
    omega
  | arr vs =>
    cases vs with
    | nil => simp [sJ, encJ]
    | cons w ws =>
      have h1 := sJ_le w
      have h2 := sL_le ws
      simp only [sJ, encJ, List.length_cons, List.length_append, List.length_nil]
      omega
  | obj ms =>
    cases ms with
    | onil => simp [sJ, encJ]
    | ocons k w ms2 =>
      have h1 := sJ_le w
      have h2 := sO_le ms2
      simp only [sJ, encJ, List.length_cons, List.length_append, List.length_nil]
      omega
termination_by sizeOf v

theorem sL_le (vs : JsonList) : sL vs ≤ 2 * (encL vs).length + 2 := by
  cases vs with
  | nil => simp [sL, encL]
  | cons w ws =>
    have h1 := sJ_le w
    have h2 := sL_le ws
    simp only [sL, encL, List.length_cons, List.length_append]
    omega
termination_by sizeOf vs

theorem sO_le (ms : JsonObj) : sO ms ≤ 2 * (encO ms).length + 2 := by
  cases ms with
  | onil => simp [sO, encO]
  | ocons k w ms2 =>
    have h1 := sJ_le w
    have h2 := sO_le ms2
    simp only [sO, encO, List.length_cons, List.length_append]
    omega
termination_by sizeOf ms

end

/- Round-trip fidelity of the modelled codec: decoding any encoded
   value gives back exactly that value. -/

theorem parse_encode (v : Json) : parseJson (encodeJson v) = some v := by
  have h := pvEnc v (2 * (encJ v).length + 2) (by have := sJ_le v; omega) []
    (by simp [headNotDig])
  rw [List.append_nil] at h
  unfold parseJson
  have hdata : (encodeJson v).data = encJ v := rfl
  have hlen : (encodeJson v).length = (encJ v).length := rfl
  rw [hdata, hlen, h]
  simp [skipSp]

/- Claim theorems. -/

/-- C1: for every configured base_url, api_key and atomic event, append
sends the event as a JSON request body via an HTTP POST to base_url/append
with the x-api-key and Content-Type headers, and returns the parsed JSON
response body; in particular, with the default configuration and the
example event, a mocked server answering with the status-ok object makes
append return exactly that mapping. -/
theorem append_contract :
    (∀ (cfg : Config) (event : Json), appendRequest cfg event =
      { method := .POST
        url := cfg.base_url ++ "/append"
        headers := [("x-api-key", cfg.api_key), ("Content-Type", "application/json")]
        body := some (encodeJson event) }) ∧
    appendOp defaultConfig
        (fun _ => .ok { status := 200, body := "\x7b\"status\": \"ok\"\x7d" })
        exampleEvent =
      (.ok (.obj (.ocons ("status") (.str ("ok")) .onil)),
        [appendRequest defaultConfig exampleEvent]) :=
  ⟨fun _ _ => rfl, rfl⟩

/-- C2 counterexample: the claim asserts proper query-parameter encoding
with escaping of special characters, but the code interpolates the
identifier into the URL unchanged: for the identifier a-ampersand-b the
produced URL keeps the raw ampersand and differs from the
percent-encoded URL the claim requires. -/
theorem query_escaping_counterexample :
    (queryRequest defaultConfig ("a&b")).url =
      "http://localhost:8000/query?trace_id=a&b" ∧
    percentEncode ("a&b") = "a%26b" ∧
    (queryRequest defaultConfig ("a&b")).url ≠
      defaultConfig.base_url ++ "/query?trace_id=" ++ percentEncode ("a&b") := by
  refine ⟨rfl, by decide, by decide⟩

/-- C2 amended: for every trace_id, query sends an HTTP GET to
base_url/query with the identifier appended verbatim after trace_id=
(no query-parameter escaping is performed), with the x-api-key header;
with the example identifier the path contains exactly
trace_id=py-demo-123e. -/
theorem query_contract_amended :
    (∀ (cfg : Config) (trace_id : String), queryRequest cfg trace_id =
      { method := .GET
        url := cfg.base_url ++ "/query?trace_id=" ++ trace_id
        headers := [("x-api-key", cfg.api_key)]
        body := none }) ∧
    (queryRequest defaultConfig ("py-demo-123e")).url =
      "http://localhost:8000/query?trace_id=py-demo-123e" :=
  ⟨fun _ _ => rfl, rfl⟩

/-- C3 counterexample: on a response with an authentication-failure
status (401) whose body is valid JSON, all three operations return the
parsed body as an ordinary result instead of surfacing a distinct
AuthError condition. -/
theorem auth_failure_counterexample :
    (appendOp defaultConfig
        (fun _ => .ok { status := 401, body := "\x7b\"detail\": \"Unauthorized\"\x7d" })
        exampleEvent).1 =
      .ok (.obj (.ocons ("detail") (.str ("Unauthorized")) .onil)) ∧
    (scanOp defaultConfig
        (fun _ => .ok { status := 401, body := "\x7b\"detail\": \"Unauthorized\"\x7d" })).1 =
      .ok (.obj (.ocons ("detail") (.str ("Unauthorized")) .onil)) ∧
    (queryOp defaultConfig
        (fun _ => .ok { status := 401, body := "\x7b\"detail\": \"Unauthorized\"\x7d" })
        ("py-demo-123e")).1 =
      .ok (.obj (.ocons ("detail") (.str ("Unauthorized")) .onil)) :=
  ⟨rfl, rfl, rfl⟩

/-- C3 amended: the client never distinguishes authentication-failure
statuses: on a 401 or 403 response whose body is valid JSON, each of
append, scan and query returns the parsed body as an ordinary result;
no distinct AuthError condition exists in the code. -/
theorem auth_status_not_distinguished (cfg : Config) (event : Json)
    (trace_id : String) (st : Nat) (b : String) (v : Json)
    (_hstatus : st = 401 ∨ st = 403) (hbody : parseJson b = some v) :
    (appendOp cfg (fun _ => .ok { status := st, body := b }) event).1 = .ok v ∧
    (scanOp cfg (fun _ => .ok { status := st, body := b })).1 = .ok v ∧
    (queryOp cfg (fun _ => .ok { status := st, body := b }) trace_id).1 = .ok v := by
  refine ⟨?_, ?_, ?_⟩ <;> simp [appendOp, scanOp, queryOp, runOp, handleResponse, hbody]

/-- C3 amended, witnessed at status 401 with an empty-object body. -/
theorem auth_status_not_distinguished_witness :
    (appendOp defaultConfig (fun _ => .ok { status := 401, body := "\x7b\x7d" })
        exampleEvent).1 = .ok (.obj .onil) ∧
    (scanOp defaultConfig (fun _ => .ok { status := 401, body := "\x7b\x7d" })).1 =
      .ok (.obj .onil) ∧
    (queryOp defaultConfig (fun _ => .ok { status := 401, body := "\x7b\x7d" })
        ("py-demo-123e")).1 = .ok (.obj .onil) :=
  auth_status_not_distinguished defaultConfig exampleEvent ("py-demo-123e") 401
    ("\x7b\x7d") (.obj .onil) (Or.inl rfl) rfl

/-- C4: for every configuration and every atomic event, the JSON body of
the request that append constructs decodes back to exactly the original
event (round-trip fidelity of serialization). -/
theorem append_body_roundtrip (cfg : Config) (event : Json) :
    requestBodyJson (appendRequest cfg event) = some event := by
  unfold requestBodyJson appendRequest
  simp [parse_encode]

/-- C5: when the transport reports a connection failure, each of append,
scan and query surfaces the transport error and nothing else, the error
surfaces immediately, and the operation issues exactly one request (no
automatic retry). -/
theorem transport_failure_propagates (cfg : Config) (event : Json)
    (trace_id : String) (m : String) (transport : Request → TransportResult)
    (hfail : ∀ r, transport r = .failure m) :
    appendOp cfg transport event =
      (.error (.transportError m), [appendRequest cfg event]) ∧
    scanOp cfg transport = (.error (.transportError m), [scanRequest cfg]) ∧
    queryOp cfg transport trace_id =
      (.error (.transportError m), [queryRequest cfg trace_id]) := by
  refine ⟨?_, ?_, ?_⟩ <;> simp [appendOp, scanOp, queryOp, runOp, handleResponse, hfail]

/-- C5, witnessed with a transport that always refuses the connection. -/
theorem transport_failure_propagates_witness :
    appendOp defaultConfig (fun _ => .failure ("connection refused")) exampleEvent =
      (.error (.transportError ("connection refused")),
        [appendRequest defaultConfig exampleEvent]) ∧
    scanOp defaultConfig (fun _ => .failure ("connection refused")) =
      (.error (.transportError ("connection refused")), [scanRequest defaultConfig]) ∧
    queryOp defaultConfig (fun _ => .failure ("connection refused")) ("py-demo-123e") =
      (.error (.transportError ("connection refused")),
        [queryRequest defaultConfig ("py-demo-123e")]) :=
  transport_failure_propagates defaultConfig exampleEvent ("py-demo-123e")
    ("connection refused") (fun _ => .failure ("connection refused")) (fun _ => rfl)

/-- C6 counterexample: the claim asserts DecodeError for a body that is
valid JSON but not an object; on the body 42 the operation instead
returns the parsed number as an ordinary result. -/
theorem nonobject_body_counterexample :
    (appendOp defaultConfig (fun _ => .ok { status := 200, body := "42" })
        exampleEvent).1 = .ok (.num 42) ∧
    (appendOp defaultConfig (fun _ => .ok { status := 200, body := "42" })
        exampleEvent).1 ≠ .error .decodeError := by
  refine ⟨rfl, ?_⟩
  intro h
  rw [show (appendOp defaultConfig (fun _ => .ok { status := 200, body := "42" })
      exampleEvent).1 = .ok (.num 42) from rfl] at h
  exact Except.noConfusion h

/-- C6 amended: the decode error is surfaced exactly when the response
body is not valid JSON; the minimally-expected-shape (object) check does
not exist, valid non-object JSON being returned as an ordinary result. -/
theorem decode_error_on_invalid_json (cfg : Config) (event : Json)
    (trace_id : String) (resp : Response) (hbad : parseJson resp.body = none) :
    appendOp cfg (fun _ => .ok resp) event =
      (.error .decodeError, [appendRequest cfg event]) ∧
    scanOp cfg (fun _ => .ok resp) = (.error .decodeError, [scanRequest cfg]) ∧
    queryOp cfg (fun _ => .ok resp) trace_id =
      (.error .decodeError, [queryRequest cfg trace_id]) := by
  refine ⟨?_, ?_, ?_⟩ <;> simp [appendOp, scanOp, queryOp, runOp, handleResponse, hbad]

/-- C6 amended, witnessed with a body that is not valid JSON. -/
theorem decode_error_on_invalid_json_witness :
    parseJson ("not json") = none ∧
    (appendOp defaultConfig (fun _ => .ok { status := 200, body := "not json" })
        exampleEvent =
      (.error .decodeError, [appendRequest defaultConfig exampleEvent]) ∧
    scanOp defaultConfig (fun _ => .ok { status := 200, body := "not json" }) =
      (.error .decodeError, [scanRequest defaultConfig]) ∧
    queryOp defaultConfig (fun _ => .ok { status := 200, body := "not json" })
        ("py-demo-123e") =
      (.error .decodeError, [queryRequest defaultConfig ("py-demo-123e")])) :=
  ⟨rfl, decode_error_on_invalid_json defaultConfig exampleEvent ("py-demo-123e")
    { status := 200, body := "not json" } rfl⟩

/-- C7: on every request issued by any of the three operations, the
x-api-key header is present with the configured key as its value. -/
theorem api_key_header_always_sent (cfg : Config) (event : Json)
    (trace_id : String) :
    ("x-api-key", cfg.api_key) ∈ (appendRequest cfg event).headers ∧
    ("x-api-key", cfg.api_key) ∈ (scanRequest cfg).headers ∧
    ("x-api-key", cfg.api_key) ∈ (queryRequest cfg trace_id).headers := by
  refine ⟨?_, ?_, ?_⟩ <;> simp [appendRequest, scanRequest, queryRequest]

/-- C8: scan takes no input beyond the configuration, sends an HTTP GET
to base_url/scan with the x-api-key header and no request body, and
returns the parsed JSON response. -/
theorem scan_contract (cfg : Config) (transport : Request → TransportResult)
    (resp : Response) (v : Json) (hresp : transport (scanRequest cfg) = .ok resp)
    (hbody : parseJson resp.body = some v) :
    scanRequest cfg =
      { method := .GET
        url := cfg.base_url ++ "/scan"
        headers := [("x-api-key", cfg.api_key)]
        body := none } ∧
    scanOp cfg transport = (.ok v, [scanRequest cfg]) := by
  refine ⟨rfl, ?_⟩
  simp [scanOp, runOp, handleResponse, hresp, hbody]

/-- C8, witnessed with a mocked server returning an empty JSON array. -/
theorem scan_contract_witness :
    scanRequest defaultConfig =
      { method := .GET
        url := defaultConfig.base_url ++ "/scan"
        headers := [("x-api-key", defaultConfig.api_key)]
        body := none } ∧
    scanOp defaultConfig (fun _ => .ok { status := 200, body := "[]" }) =
      (.ok (.arr .nil), [scanRequest defaultConfig]) :=
  scan_contract defaultConfig (fun _ => .ok { status := 200, body := "[]" })
    { status := 200, body := "[]" } (.arr .nil) rfl rfl

/-- C9: the event record is built once for the append call and is not
mutated afterwards: the append request body decodes back to exactly the
constructed event, the script's first request is that append request,
and, whenever the transport answers the append request identically, the
event has no influence on anything that follows it: the script result
and every subsequently issued request are unchanged when the event is
replaced by any other, only the immutable configuration being carried
between the calls. -/
theorem event_ownership_frame (cfg : Config)
    (transport : Request → TransportResult) (e e' : Json)
    (h : transport (appendRequest cfg e) = transport (appendRequest cfg e')) :
    (runScript cfg transport e).2.head? = some (appendRequest cfg e) ∧
    requestBodyJson (appendRequest cfg e) = some e ∧
    (runScript cfg transport e).1 = (runScript cfg transport e').1 ∧
    (runScript cfg transport e).2.tail = (runScript cfg transport e').2.tail := by
  have hbody : requestBodyJson (appendRequest cfg e) = some e := by
    unfold requestBodyJson appendRequest
    simp [parse_encode]
  have hmain : (runScript cfg transport e).2.head? = some (appendRequest cfg e) ∧
      (runScript cfg transport e).1 = (runScript cfg transport e').1 ∧
      (runScript cfg transport e).2.tail = (runScript cfg transport e').2.tail := by
    unfold runScript
    rw [h]
    rcases handleResponse (transport (appendRequest cfg e')) with err | v1
    · simp
    · rcases handleResponse (transport (scanRequest cfg)) with err2 | v2
      · simp
      · rcases handleResponse (transport (queryRequest cfg ("py-demo-123e"))) with
          err3 | v3
        · simp
        · simp
  exact ⟨hmain.1, hbody, hmain.2.1, hmain.2.2⟩

/-- C9, witnessed with a constant transport and two distinct events. -/
theorem event_ownership_frame_witness :
    (runScript defaultConfig (fun _ => .ok { status := 200, body := "\x7b\x7d" })
        exampleEvent).2.head? = some (appendRequest defaultConfig exampleEvent) ∧
    requestBodyJson (appendRequest defaultConfig exampleEvent) = some exampleEvent ∧
    (runScript defaultConfig (fun _ => .ok { status := 200, body := "\x7b\x7d" })
        exampleEvent).1 =
      (runScript defaultConfig (fun _ => .ok { status := 200, body := "\x7b\x7d" })
        Json.null).1 ∧
    (runScript defaultConfig (fun _ => .ok { status := 200, body := "\x7b\x7d" })
        exampleEvent).2.tail =
      (runScript defaultConfig (fun _ => .ok { status := 200, body := "\x7b\x7d" })
        Json.null).2.tail :=
  event_ownership_frame defaultConfig
    (fun _ => .ok { status := 200, body := "\x7b\x7d" }) exampleEvent Json.null rfl

/-- C10: whenever the response body parses as valid JSON, each operation
returns the parsed body whatever the HTTP status code is, 4xx and 5xx
included: the client never inspects the status code, so an error response
with a JSON body comes back as an ordinary result. -/
theorem status_code_ignored (cfg : Config) (event : Json) (trace_id : String)
    (st : Nat) (b : String) (v : Json) (hbody : parseJson b = some v) :
    (appendOp cfg (fun _ => .ok { status := st, body := b }) event).1 = .ok v ∧
    (scanOp cfg (fun _ => .ok { status := st, body := b })).1 = .ok v ∧
    (queryOp cfg (fun _ => .ok { status := st, body := b }) trace_id).1 = .ok v := by
  refine ⟨?_, ?_, ?_⟩ <;> simp [appendOp, scanOp, queryOp, runOp, handleResponse, hbody]

/-- C10, witnessed at status 500 with a JSON error body. -/
theorem status_code_ignored_witness :
    (appendOp defaultConfig
        (fun _ => .ok { status := 500, body := "\x7b\"detail\": \"boom\"\x7d" })
        exampleEvent).1 = .ok (.obj (.ocons ("detail") (.str ("boom")) .onil)) ∧
    (scanOp defaultConfig
        (fun _ => .ok { status := 500, body := "\x7b\"detail\": \"boom\"\x7d" })).1 =
      .ok (.obj (.ocons ("detail") (.str ("boom")) .onil)) ∧
    (queryOp defaultConfig
        (fun _ => .ok { status := 500, body := "\x7b\"detail\": \"boom\"\x7d" })
        ("py-demo-123e")).1 = .ok (.obj (.ocons ("detail") (.str ("boom")) .onil)) :=
  status_code_ignored defaultConfig exampleEvent ("py-demo-123e") 500
    ("\x7b\"detail\": \"boom\"\x7d") (.obj (.ocons ("detail") (.str ("boom")) .onil)) rfl
